import Mathlib

/-!
Verification of the trip-data ETL pipeline (`data_loader.py`).

The development shallowly embeds the pipeline:

* `RawRow` models one input row restricted to the six projected columns
  (`trips[['tpep_pickup_datetime', 'tpep_dropoff_datetime', 'PULocationID',
  'DOLocationID', 'trip_distance', 'fare_amount']]`); monetary and distance
  columns are embedded as exact rationals, location ids as integers.
* `filterBronx`, `filterDistance`, `filterFare` embed the three successive
  dataframe filters, applied in source order.
* `parseTs` embeds `pd.to_datetime(_, format='%Y-%m-%d %H:%M:%S')` on a
  single cell: strict 19-character `YYYY-MM-DD HH:MM:SS` with calendar
  validation; failure of any cell aborts the whole conversion.
* `transform` embeds the pure read-project-filter-convert part of
  `DataLoader.load_transform_file` (column-wise: pickup column first, then
  dropoff column, exactly as lines 53-54 of the source).
* `Graph`, `runStmt`, `loadWithTrace`, `loadAll` embed the Neo4j session
  loop (lines 61-91): per record a `MERGE` for the pickup location, a
  `MERGE` for the dropoff location, then a `MATCH ... CREATE` for the
  `TRIP` relationship, each a separate `session.run`.
* `save_loc` embeds line 57:
  `"/var/lib/neo4j/import/" + file_path.split(".")[0] + '.csv'`;
  Python's `split(".")[0]` is the prefix of the string before its first
  dot (the whole string when it has no dot), i.e. `takeWhile (· ≠ '.')`.
* `runFrom` / `run` embed the retry loop of `main` (lines 96-114):
  `while attempt < 10`, body `try: connect; load; close; attempt := 10`
  `except Exception as e: print(...); attempt += 1; time.sleep(10)`.
  The loop is driven by a per-iteration `Outcome`: the whole attempt
  succeeds, the connect itself raises, or the load raises after a
  successful connect.  Fuel `10 - attempt` replaces the mutable counter;
  setting `attempt := 10` on success is the immediate successful exit.
-/

/-- The allow-set of zone identifiers, line 47 of the source (`bronx`). -/
def bronx : List Int :=
  [3, 18, 20, 31, 32, 46, 47, 51, 58, 59, 60, 69, 78, 81, 94, 119, 126,
   136, 147, 159, 167, 168, 169, 174, 182, 183, 184, 185, 199, 200, 208,
   212, 213, 220, 235, 240, 241, 242, 247, 248, 250, 254, 259]

/-- One input row after the projection to the six named columns (line 44).
Column order matches the source, so `iloc[:, 2]` is `PULocationID` and
`iloc[:, 3]` is `DOLocationID`. -/
structure RawRow where
  tpep_pickup_datetime : String
  tpep_dropoff_datetime : String
  PULocationID : Int
  DOLocationID : Int
  trip_distance : Rat
  fare_amount : Rat
deriving DecidableEq, Repr

/-- Line 48: keep rows whose pickup and dropoff zone are both in `bronx`. -/
def filterBronx (rows : List RawRow) : List RawRow :=
  rows.filter (fun r =>
    decide (r.PULocationID ∈ bronx) && decide (r.DOLocationID ∈ bronx))

/-- Line 49: keep rows with `trip_distance > 0.1`.  The threshold `0.1` is
written `mkRat 1 10` (the same rational) so that concrete instances reduce
in the kernel; `survives_iff_allowSet_and_thresholds` records the equality
with the decimal literal. -/
def filterDistance (rows : List RawRow) : List RawRow :=
  rows.filter (fun r => decide (r.trip_distance > mkRat 1 10))

/-- Line 50: keep rows with `fare_amount > 2.5`, with `2.5` written
`mkRat 5 2`. -/
def filterFare (rows : List RawRow) : List RawRow :=
  rows.filter (fun r => decide (r.fare_amount > mkRat 5 2))

/-- The three filters in source order (lines 48-50). -/
def filteredTrips (rows : List RawRow) : List RawRow :=
  filterFare (filterDistance (filterBronx rows))

/-- Calendar data for timestamp validation: leap years as in the Gregorian
calendar used by the datetime library. -/
def isLeapYear (y : Nat) : Bool :=
  (y % 4 == 0 && y % 100 != 0) || (y % 400 == 0)

/-- Number of days of month `m` (1-12) of year `y`. -/
def daysInMonth (y m : Nat) : Nat :=
  if m = 2 then (if isLeapYear y then 29 else 28)
  else if m = 4 ∨ m = 6 ∨ m = 9 ∨ m = 11 then 30
  else 31

/-- A parsed timestamp, the result of `pd.to_datetime` on one cell. -/
structure Timestamp where
  year : Nat
  month : Nat
  day : Nat
  hour : Nat
  minute : Nat
  second : Nat
deriving DecidableEq, Repr

/-- Numeric value of two decimal digit characters, `none` on a non-digit. -/
def twoDigits (a b : Char) : Option Nat :=
  if a.isDigit && b.isDigit then some ((a.toNat - 48) * 10 + (b.toNat - 48))
  else none

/-- Numeric value of four decimal digit characters. -/
def fourDigits (a b c d : Char) : Option Nat :=
  match twoDigits a b, twoDigits c d with
  | some hi, some lo => some (hi * 100 + lo)
  | _, _ => none

/-- Lines 53-54: parse one timestamp cell with
`pd.to_datetime(_, format='%Y-%m-%d %H:%M:%S')`: exactly the 19-character
shape `YYYY-MM-DD HH:MM:SS` with a valid calendar date and time of day;
any other text raises, which the embedding models as `none`. -/
def parseTs (s : String) : Option Timestamp :=
  match s.toList with
  | [y1, y2, y3, y4, c1, m1, m2, c2, d1, d2, c3,
     h1, h2, c4, n1, n2, c5, s1, s2] =>
    match fourDigits y1 y2 y3 y4, twoDigits m1 m2, twoDigits d1 d2,
        twoDigits h1 h2, twoDigits n1 n2, twoDigits s1 s2 with
    | some y, some mo, some d, some h, some mi, some sec =>
      if c1 = '-' ∧ c2 = '-' ∧ c3 = ' ' ∧ c4 = ':' ∧ c5 = ':' ∧
          1 ≤ mo ∧ mo ≤ 12 ∧ 1 ≤ d ∧ d ≤ daysInMonth y mo ∧
          h < 24 ∧ mi < 60 ∧ sec < 60 then
        some ⟨y, mo, d, h, mi, sec⟩
      else none
    | _, _, _, _, _, _ => none
  | _ => none

/-- A fully transformed record, ready for the graph loader. -/
structure TripRecord where
  PULocationID : Int
  DOLocationID : Int
  trip_distance : Rat
  fare_amount : Rat
  tpep_pickup_datetime : Timestamp
  tpep_dropoff_datetime : Timestamp
deriving DecidableEq, Repr

/-- One `pd.to_datetime` call on a whole column: every cell must parse or
the call raises (`FormatError`); no per-row skip. -/
def parseColumn : List String → Except String (List Timestamp)
  | [] => Except.ok []
  | s :: rest =>
    match parseTs s with
    | none => Except.error "FormatError"
    | some t =>
      match parseColumn rest with
      | Except.error e => Except.error e
      | Except.ok ts => Except.ok (t :: ts)

/-- Reassemble the dataframe rows with both converted datetime columns. -/
def mkRecords (rows : List RawRow) (ps ds : List Timestamp) :
    List TripRecord :=
  (rows.zip (ps.zip ds)).map (fun x =>
    ⟨x.1.PULocationID, x.1.DOLocationID, x.1.trip_distance,
     x.1.fare_amount, x.2.1, x.2.2⟩)

/-- The pure transformation part of `DataLoader.load_transform_file`
(lines 44-54): project, filter three times, then convert the pickup
datetime column and the dropoff datetime column, in that order.  A parse
failure anywhere aborts the whole call with `FormatError`. -/
def transform (rows : List RawRow) : Except String (List TripRecord) :=
  match parseColumn ((filteredTrips rows).map
      (fun r => r.tpep_pickup_datetime)) with
  | Except.error e => Except.error e
  | Except.ok ps =>
    match parseColumn ((filteredTrips rows).map
        (fun r => r.tpep_dropoff_datetime)) with
    | Except.error e => Except.error e
    | Except.ok ds => Except.ok (mkRecords (filteredTrips rows) ps ds)

/-- Line 57 of the source:
`save_loc = "/var/lib/neo4j/import/" + file_path.split(".")[0] + '.csv'`.
Python's `split(".")[0]` is the prefix of the string before its first dot,
i.e. `takeWhile (· ≠ '.')` on the character list. -/
def save_loc (file_path : String) : String :=
  "/var/lib/neo4j/import/" ++
    String.mk (file_path.toList.takeWhile (fun c => c ≠ '.')) ++ ".csv"

/-- Modelled from the spec (§4.4, C6): the base name of a path — the part
after the last `/` — with its extension — the part from the last dot of
the base name — removed. -/
def stagingBase (p : List Char) : List Char :=
  let base := (p.reverse.takeWhile (fun c => c ≠ '/')).reverse
  if '.' ∈ base then
    ((base.reverse.dropWhile (fun c => c ≠ '.')).drop 1).reverse
  else base

/-- Modelled from the spec (§4.4, C6): the staging path the spec describes,
"the same base name with extension .csv under the fixed staging directory":
strip the directory part (after the last `/`), strip the extension (from
the last dot), append `.csv` under the import directory.  Used only to
compare the source's derivation against the spec's words. -/
def specStagingPath (file_path : String) : String :=
  "/var/lib/neo4j/import/" ++
    String.mk (stagingBase (file_path.toList)) ++ ".csv"

/-- The `TRIP` relationship of the graph: endpoints by `Location` name and
the four properties of the `CREATE` statement (lines 72-80). -/
structure TripEdge where
  src : Int
  dst : Int
  distance : Rat
  fare : Rat
  pickup_dt : Timestamp
  dropoff_dt : Timestamp
deriving DecidableEq, Repr

/-- The edge a record contributes (parameter binding of lines 85-91). -/
def edgeOf (r : TripRecord) : TripEdge :=
  ⟨r.PULocationID, r.DOLocationID, r.trip_distance, r.fare_amount,
   r.tpep_pickup_datetime, r.tpep_dropoff_datetime⟩

/-- Graph-store state: `Location` nodes by `name`, and `TRIP` edges. -/
structure Graph where
  nodes : List Int
  edges : List TripEdge
deriving DecidableEq, Repr

/-- One parameterized statement submitted by `session.run`. -/
inductive Stmt where
  | mergeLocation (name : Int)
  | createTrip (e : TripEdge)
deriving DecidableEq, Repr

/-- Semantics of one statement.  `MERGE (p:Location {name: $id})` creates
the node only when absent; `MATCH ..., ... CREATE ...-[r:TRIP ...]->...`
appends a new edge whenever both endpoint nodes match (and appends even if
an identical edge already exists — `CREATE` is not idempotent). -/
def runStmt (g : Graph) : Stmt → Graph
  | Stmt.mergeLocation n =>
    if n ∈ g.nodes then g else { g with nodes := g.nodes ++ [n] }
  | Stmt.createTrip e =>
    if e.src ∈ g.nodes ∧ e.dst ∈ g.nodes then
      { g with edges := g.edges ++ [e] }
    else g

/-- The session loop of lines 61-91, also recording the statements in the
order they are submitted: per record, `MERGE` pickup node, `MERGE` dropoff
node, `CREATE` the trip edge — three separate `session.run` round trips. -/
def loadWithTrace (g : Graph) : List TripRecord → Graph × List Stmt
  | [] => (g, [])
  | r :: rs =>
    let g1 := runStmt g (Stmt.mergeLocation r.PULocationID)
    let g2 := runStmt g1 (Stmt.mergeLocation r.DOLocationID)
    let g3 := runStmt g2 (Stmt.createTrip (edgeOf r))
    let rest := loadWithTrace g3 rs
    (rest.1,
     Stmt.mergeLocation r.PULocationID :: Stmt.mergeLocation r.DOLocationID
       :: Stmt.createTrip (edgeOf r) :: rest.2)

/-- Effect of loading one record (the body of the `for` loop). -/
def loadRecord (g : Graph) (r : TripRecord) : Graph :=
  runStmt (runStmt (runStmt g (Stmt.mergeLocation r.PULocationID))
    (Stmt.mergeLocation r.DOLocationID)) (Stmt.createTrip (edgeOf r))

/-- Effect of one full graph load over the record sequence. -/
def loadAll (g : Graph) (recs : List TripRecord) : Graph :=
  recs.foldl loadRecord g

/-- The statements that reach the graph store for a given input: none when
the transform raises before the session loop is entered. -/
def pipelineStmts (g : Graph) (rows : List RawRow) : List Stmt :=
  match transform rows with
  | Except.ok recs => (loadWithTrace g recs).2
  | Except.error _ => []

/-- What one iteration of the retry loop of `main` does, as seen from the
loop: the whole `try` body runs without an exception (`ok`), the
`DataLoader(...)` constructor raises while connecting (`connFail`, with
the exception's message `str(e)`), or the connect succeeds and
`load_transform_file` raises afterwards (`loadFail`, likewise). -/
inductive Outcome where
  | ok
  | connFail (msg : String)
  | loadFail (msg : String)
deriving DecidableEq, Repr

/-- Observable events of a run of `main`: entering the `try` body and
attempting to connect, a connection being opened (successful
`verify_connectivity`), a connection being closed (`data_loader.close()`),
the `except` handler's `print` (with the 1-based attempt number it
displays and the exception message), and `time.sleep(10)`. -/
inductive Event where
  | tryConnect (k : Nat)
  | connOpened (k : Nat)
  | connClosed (k : Nat)
  | logErr (k : Nat) (msg : String)
  | sleepTen
deriving DecidableEq, Repr

/-- Final state of the run: the loop exited after a successful attempt, or
after exhausting the attempt budget. -/
inductive Final where
  | succeeded
  | failed
deriving DecidableEq, Repr

/-- The retry loop of `main` (lines 103-114), driven by the outcome of
each iteration.  `attempt` is the source's counter at loop entry and
`fuel = total_attempts - attempt` counts the remaining iterations the
`while attempt < total_attempts` guard allows; `attempt := total_attempts`
on success is the immediate exit with `Final.succeeded`.  On `ok` the body
runs `connect; load; close` and exits; on a failure the handler prints,
increments the counter and sleeps, and the loop re-checks its guard.
Note the success path closes the connection (line 107) but the `except`
path does not: a `loadFail` iteration opens a connection and never closes
it. -/
def runFrom (o : Nat → Outcome) : Nat → Nat → List Event × Final
  | _, 0 => ([], Final.failed)
  | attempt, fuel + 1 =>
    match o attempt with
    | Outcome.ok =>
      ([Event.tryConnect attempt, Event.connOpened attempt,
        Event.connClosed attempt], Final.succeeded)
    | Outcome.connFail m =>
      let rest := runFrom o (attempt + 1) fuel
      (Event.tryConnect attempt :: Event.logErr (attempt + 1) m ::
        Event.sleepTen :: rest.1, rest.2)
    | Outcome.loadFail m =>
      let rest := runFrom o (attempt + 1) fuel
      (Event.tryConnect attempt :: Event.connOpened attempt ::
        Event.logErr (attempt + 1) m :: Event.sleepTen :: rest.1, rest.2)

/-- The fixed attempt budget of `main` (line 98). -/
def total_attempts : Nat := 10

/-- A full run of `main`, from `attempt = 0` with the budget of 10. -/
def run (o : Nat → Outcome) : List Event × Final :=
  runFrom o 0 total_attempts

/-- Number of iterations of the loop body (connect attempts) in a trace. -/
def countTry (tr : List Event) : Nat :=
  tr.countP (fun e => match e with | Event.tryConnect _ => true | _ => false)

/-- Number of `time.sleep(10)` calls in a trace. -/
def countSleep (tr : List Event) : Nat :=
  tr.countP (fun e => match e with | Event.sleepTen => true | _ => false)

/-- Number of handler log lines in a trace. -/
def countLog (tr : List Event) : Nat :=
  tr.countP (fun e => match e with | Event.logErr _ _ => true | _ => false)

/-- The handler's log lines, in order: attempt number displayed and
message.  `print(f"(Attempt {attempt+1}/{total_attempts}) Error: ", e)`
prints `str(e)`, the exception's message, with no exception class name. -/
def logsOf (tr : List Event) : List (Nat × String) :=
  tr.filterMap (fun e =>
    match e with | Event.logErr k m => some (k, m) | _ => none)

/-- The message an outcome's exception carries, `none` for success.  The
handler can only see this — `str(e)` — not which step raised. -/
def outcomeMsg : Outcome → Option String
  | Outcome.ok => none
  | Outcome.connFail m => some m
  | Outcome.loadFail m => some m

/-- C1: a row survives the transformation's filtering stage iff both its
`PULocationID` and `DOLocationID` are in the 43-element allow-set `bronx`,
its `trip_distance` is strictly greater than 0.1 and its `fare_amount` is
strictly greater than 2.5.  The boundary cases of the claim are checked on
concrete rows: distance exactly 0.1 is excluded, 0.10001 is included,
zone 2 is excluded, zone 3 is included. -/
theorem survives_iff_allowSet_and_thresholds :
    (∀ (rows : List RawRow) (r : RawRow),
      r ∈ filteredTrips rows ↔
        (r ∈ rows ∧ r.PULocationID ∈ bronx ∧ r.DOLocationID ∈ bronx ∧
          r.trip_distance > 0.1 ∧ r.fare_amount > 2.5)) ∧
    (mkRat 1 10 : ℚ) = 0.1 ∧ (mkRat 5 2 : ℚ) = 2.5 ∧
    bronx.length = 43 ∧ (2 : Int) ∉ bronx ∧ (3 : Int) ∈ bronx ∧
    filteredTrips [⟨"a", "b", 3, 18, mkRat 1 10, 10⟩] = [] ∧
    filteredTrips [⟨"a", "b", 3, 18, mkRat 10001 100000, 10⟩] =
      [⟨"a", "b", 3, 18, mkRat 10001 100000, 10⟩] ∧
    filteredTrips [⟨"a", "b", 2, 18, 5, 10⟩] = [] ∧
    filteredTrips [⟨"a", "b", 3, 18, 5, 10⟩] = [⟨"a", "b", 3, 18, 5, 10⟩] := by
  have hd : (mkRat 1 10 : ℚ) = 0.1 := by norm_num [Rat.mkRat_eq_div]
  have hf : (mkRat 5 2 : ℚ) = 2.5 := by norm_num [Rat.mkRat_eq_div]
  refine ⟨?_, hd, hf, by decide, by decide, by decide, by decide,
    by decide, by decide, by decide⟩
  intro rows r
  simp only [filteredTrips, filterFare, filterDistance, filterBronx,
    List.mem_filter, Bool.and_eq_true, decide_eq_true_eq, hd, hf]
  tauto

/-- A column conversion succeeds exactly when every cell parses, and then
returns the parses in order. -/
theorem parseColumn_ok_iff (texts : List String) (ts : List Timestamp) :
    parseColumn texts = Except.ok ts ↔ texts.map parseTs = ts.map some := by
  induction texts generalizing ts with
  | nil =>
    cases ts with
    | nil => simp [parseColumn]
    | cons a l => simp [parseColumn]
  | cons s rest ih =>
    cases hp : parseTs s with
    | none =>
      cases ts with
      | nil => simp [parseColumn, hp]
      | cons a l => simp [parseColumn, hp]
    | some t =>
      cases hr : parseColumn rest with
      | error e =>
        cases ts with
        | nil => simp [parseColumn, hp, hr]
        | cons a l =>
          simp only [parseColumn, hp, hr, List.map_cons]
          constructor
          · intro h
            cases h
          · intro h
            have := (ih l).mpr (List.cons.injEq _ _ _ _ ▸ h).2
            rw [this] at hr
            cases hr
      | ok us =>
        cases ts with
        | nil => simp [parseColumn, hp, hr]
        | cons a l =>
          have hrest := (ih us).mp hr
          simp only [parseColumn, hp, hr, List.map_cons, Except.ok.injEq,
            List.cons.injEq, Option.some.injEq]
          constructor
          · rintro ⟨h1, h2⟩
            subst h1
            subst h2
            exact ⟨rfl, hrest⟩
          · rintro ⟨h1, h2⟩
            refine ⟨h1, ?_⟩
            have := (ih l).mpr h2
            rw [this] at hr
            cases hr
            rfl

/-- A column conversion with an unparseable cell raises `FormatError`. -/
theorem parseColumn_error_of_bad (texts : List String)
    (h : ∃ s ∈ texts, parseTs s = none) :
    parseColumn texts = Except.error "FormatError" := by
  induction texts with
  | nil => simp at h
  | cons s rest ih =>
    rcases h with ⟨x, hx, hbad⟩
    rcases List.mem_cons.mp hx with hx | hx
    · subst hx
      simp [parseColumn, hbad]
    · cases hp : parseTs s with
      | none => simp [parseColumn, hp]
      | some t => simp [parseColumn, hp, ih ⟨x, hx, hbad⟩]

/-- A column conversion with all cells parseable succeeds. -/
theorem parseColumn_ok_of_good (texts : List String)
    (h : ∀ s ∈ texts, parseTs s ≠ none) :
    ∃ ts, parseColumn texts = Except.ok ts := by
  induction texts with
  | nil => exact ⟨[], rfl⟩
  | cons s rest ih =>
    rcases ih (fun x hx => h x (List.mem_cons_of_mem s hx)) with ⟨us, hus⟩
    cases hp : parseTs s with
    | none => exact absurd hp (h s (List.mem_cons_self s rest))
    | some t => exact ⟨t :: us, by simp [parseColumn, hp, hus]⟩

/-- Reassembling rows with equally long converted columns keeps the scalar
fields positionally and installs the two timestamp columns. -/
theorem mkRecords_map (rows : List RawRow) (ps ds : List Timestamp)
    (h1 : rows.length = ps.length) (h2 : rows.length = ds.length) :
    (mkRecords rows ps ds).map (fun t =>
        (t.PULocationID, t.DOLocationID, t.trip_distance, t.fare_amount)) =
      rows.map (fun r =>
        (r.PULocationID, r.DOLocationID, r.trip_distance, r.fare_amount)) ∧
    (mkRecords rows ps ds).map (fun t => t.tpep_pickup_datetime) = ps ∧
    (mkRecords rows ps ds).map (fun t => t.tpep_dropoff_datetime) = ds := by
  induction rows generalizing ps ds with
  | nil =>
    cases ps with
    | nil =>
      cases ds with
      | nil => simp [mkRecords]
      | cons d ds' => simp at h2
    | cons p ps' => simp at h1
  | cons r rows' ih =>
    cases ps with
    | nil => simp at h1
    | cons p ps' =>
      cases ds with
      | nil => simp at h2
      | cons d ds' =>
        have h1' : rows'.length = ps'.length := by simpa using h1
        have h2' : rows'.length = ds'.length := by simpa using h2
        have := ih ps' ds' h1' h2'
        simp only [mkRecords, List.zip_cons_cons, List.map_cons] at this ⊢
        exact ⟨by rw [this.1], by rw [this.2.1], by rw [this.2.2]⟩

/-- C9: the transformation is a deterministic pure function — equal inputs
give equal outputs — and it preserves the input's row order: on success
the output records are, position by position, exactly the surviving rows
(whose sequence is a sublist of the input, hence in original relative
order), with their scalar columns untouched and their two datetime
columns the parses of the corresponding texts. -/
theorem transform_deterministic_and_order_preserving :
    (∀ rows₁ rows₂ : List RawRow, rows₁ = rows₂ →
      transform rows₁ = transform rows₂) ∧
    (∀ (rows : List RawRow) (recs : List TripRecord),
      transform rows = Except.ok recs →
      recs.map (fun t =>
          (t.PULocationID, t.DOLocationID, t.trip_distance, t.fare_amount)) =
        (filteredTrips rows).map (fun r =>
          (r.PULocationID, r.DOLocationID, r.trip_distance, r.fare_amount)) ∧
      recs.map (fun t => some t.tpep_pickup_datetime) =
        (filteredTrips rows).map (fun r => parseTs r.tpep_pickup_datetime) ∧
      recs.map (fun t => some t.tpep_dropoff_datetime) =
        (filteredTrips rows).map (fun r => parseTs r.tpep_dropoff_datetime) ∧
      List.Sublist (filteredTrips rows) rows) := by
  constructor
  · intro rows₁ rows₂ h
    rw [h]
  · intro rows recs h
    have hsub : List.Sublist (filteredTrips rows) rows :=
      ((List.filter_sublist _).trans (List.filter_sublist _)).trans
        (List.filter_sublist _)
    unfold transform at h
    cases hp : parseColumn ((filteredTrips rows).map
        (fun r => r.tpep_pickup_datetime)) with
    | error e => rw [hp] at h; cases h
    | ok ps =>
      rw [hp] at h
      cases hd : parseColumn ((filteredTrips rows).map
          (fun r => r.tpep_dropoff_datetime)) with
      | error e => rw [hd] at h; cases h
      | ok ds =>
        rw [hd] at h
        cases h
        have hps := (parseColumn_ok_iff _ _).mp hp
        have hds := (parseColumn_ok_iff _ _).mp hd
        have hlp : (filteredTrips rows).length = ps.length := by
          have := congrArg List.length hps
          simpa using this
        have hld : (filteredTrips rows).length = ds.length := by
          have := congrArg List.length hds
          simpa using this
        obtain ⟨hm1, hm2, hm3⟩ := mkRecords_map (filteredTrips rows) ps ds hlp hld
        rw [List.map_map] at hps hds
        refine ⟨hm1, ?_, ?_, hsub⟩
        · have e1 := congrArg (List.map some) hm2
          rw [List.map_map] at e1
          exact e1.trans hps.symm
        · have e1 := congrArg (List.map some) hm3
          rw [List.map_map] at e1
          exact e1.trans hds.symm

/-- Witness for C9 at a concrete input: one surviving row is transformed
in place, and the surviving subset is a sublist of the input. -/
theorem transform_order_witness :
    transform [⟨"2022-03-01 10:00:00", "2022-03-01 10:30:00", 3, 18, 5, 10⟩] =
      Except.ok [⟨3, 18, 5, 10, ⟨2022, 3, 1, 10, 0, 0⟩,
        ⟨2022, 3, 1, 10, 30, 0⟩⟩] ∧
    ([⟨3, 18, 5, 10, ⟨2022, 3, 1, 10, 0, 0⟩,
        ⟨2022, 3, 1, 10, 30, 0⟩⟩] : List TripRecord).map (fun t =>
        (t.PULocationID, t.DOLocationID, t.trip_distance, t.fare_amount)) =
      (filteredTrips [⟨"2022-03-01 10:00:00", "2022-03-01 10:30:00",
          3, 18, 5, 10⟩]).map (fun r =>
        (r.PULocationID, r.DOLocationID, r.trip_distance, r.fare_amount)) ∧
    List.Sublist
      (filteredTrips [⟨"2022-03-01 10:00:00", "2022-03-01 10:30:00",
        3, 18, 5, 10⟩])
      [⟨"2022-03-01 10:00:00", "2022-03-01 10:30:00", 3, 18, 5, 10⟩] := by
  have ht : transform [⟨"2022-03-01 10:00:00", "2022-03-01 10:30:00",
      3, 18, 5, 10⟩] = Except.ok [⟨3, 18, 5, 10, ⟨2022, 3, 1, 10, 0, 0⟩,
        ⟨2022, 3, 1, 10, 30, 0⟩⟩] := by rfl
  have h := transform_deterministic_and_order_preserving.2 _ _ ht
  exact ⟨ht, h.1, h.2.2.2⟩

/-- C5 (amended): if any row that survives the filters has a pickup or
dropoff timestamp text that does not match `YYYY-MM-DD HH:MM:SS`, the
whole transform call fails with `FormatError` — there is no per-row skip —
and zero statements reach the graph store. -/
theorem malformed_surviving_timestamp_fails_transform
    (rows : List RawRow)
    (h : ∃ r ∈ filteredTrips rows, parseTs r.tpep_pickup_datetime = none ∨
      parseTs r.tpep_dropoff_datetime = none) :
    transform rows = Except.error "FormatError" ∧
    ∀ g : Graph, pipelineStmts g rows = [] := by
  have hmain : transform rows = Except.error "FormatError" := by
    by_cases hpu : ∃ r ∈ filteredTrips rows,
        parseTs r.tpep_pickup_datetime = none
    · rcases hpu with ⟨r, hr, hbad⟩
      have : parseColumn ((filteredTrips rows).map
          (fun r => r.tpep_pickup_datetime)) = Except.error "FormatError" :=
        parseColumn_error_of_bad _
          ⟨r.tpep_pickup_datetime, List.mem_map_of_mem _ hr, hbad⟩
      unfold transform
      rw [this]
    · push_neg at hpu
      have hgood : ∀ s ∈ (filteredTrips rows).map
          (fun r => r.tpep_pickup_datetime), parseTs s ≠ none := by
        intro s hs
        rcases List.mem_map.mp hs with ⟨r, hr, rfl⟩
        exact hpu r hr
      rcases parseColumn_ok_of_good _ hgood with ⟨ps, hps⟩
      rcases h with ⟨r, hr, hbad | hbad⟩
      · exact absurd hbad (hpu r hr)
      · have : parseColumn ((filteredTrips rows).map
            (fun r => r.tpep_dropoff_datetime)) = Except.error "FormatError" :=
          parseColumn_error_of_bad _
            ⟨r.tpep_dropoff_datetime, List.mem_map_of_mem _ hr, hbad⟩
        unfold transform
        rw [hps, this]
  refine ⟨hmain, fun g => ?_⟩
  unfold pipelineStmts
  rw [hmain]

/-- Witness for C5 at a concrete input: a surviving row with unparseable
pickup text makes the whole transform fail and nothing reaches the
loader. -/
theorem malformed_surviving_timestamp_fails_transform_witness :
    (∃ r ∈ filteredTrips [⟨"garbage", "2022-03-01 10:30:00", 3, 18, 5, 10⟩],
      parseTs r.tpep_pickup_datetime = none ∨
        parseTs r.tpep_dropoff_datetime = none) ∧
    transform [⟨"garbage", "2022-03-01 10:30:00", 3, 18, 5, 10⟩] =
      Except.error "FormatError" ∧
    pipelineStmts ⟨[], []⟩
      [⟨"garbage", "2022-03-01 10:30:00", 3, 18, 5, 10⟩] = [] := by
  have hex : ∃ r ∈ filteredTrips
      [⟨"garbage", "2022-03-01 10:30:00", 3, 18, 5, 10⟩],
      parseTs r.tpep_pickup_datetime = none ∨
        parseTs r.tpep_dropoff_datetime = none := by
    refine ⟨⟨"garbage", "2022-03-01 10:30:00", 3, 18, 5, 10⟩, ?_, ?_⟩
    · decide
    · left
      rfl
  have h := malformed_surviving_timestamp_fails_transform _ hex
  exact ⟨hex, h.1, h.2 ⟨[], []⟩⟩

/-- Counterexample to C5 as stated: an input containing a row with
malformed pickup and dropoff timestamp text whose transform nevertheless
succeeds, because the row is removed by the zone filter (zone 2 is not in
the allow-set) before the datetime conversion runs.  The conversion only
sees surviving rows. -/
theorem malformed_filtered_row_transform_succeeds :
    parseTs "garbage" = none ∧
    transform [⟨"garbage", "garbage", 2, 18, 5, 10⟩] = Except.ok [] := by
  constructor
  · rfl
  · rfl

/-- `takeWhile (· ≠ '.')` returns everything before the first dot. -/
theorem takeWhile_ne_dot_append (a b : List Char) (h : ∀ c ∈ a, c ≠ '.') :
    (a ++ '.' :: b).takeWhile (fun c => decide (c ≠ '.')) = a := by
  induction a with
  | nil => simp [List.takeWhile]
  | cons c rest ih =>
    have hc : c ≠ '.' := h c (List.mem_cons_self c rest)
    have hrest := ih (fun x hx => h x (List.mem_cons_of_mem c hx))
    simp only [List.cons_append, List.takeWhile_cons, hc, decide_True,
      decide_eq_true_eq, if_true]
    simp [hc]
    simpa using hrest

/-- C6 (amended): the staging path is the fixed import directory followed
by the portion of the input path before its first `.`, with `.csv`
appended.  For an input that is a bare file name with a single dot — like
the spec's example — this coincides with "base name with extension
`.csv`": `yellow_tripdata_2022-03.parquet` maps to a path ending in
`yellow_tripdata_2022-03.csv`. -/
theorem staging_path_from_input_path :
    (∀ a b : List Char, (∀ c ∈ a, c ≠ '.') →
      save_loc (String.mk (a ++ '.' :: b)) =
        "/var/lib/neo4j/import/" ++ String.mk a ++ ".csv") ∧
    save_loc "yellow_tripdata_2022-03.parquet" =
      "/var/lib/neo4j/import/yellow_tripdata_2022-03.csv" := by
  constructor
  · intro a b h
    unfold save_loc
    have : (String.mk (a ++ '.' :: b)).toList = a ++ '.' :: b := rfl
    rw [this, takeWhile_ne_dot_append a b h]
  · rfl

/-- Witness for C6 on the spec's example, through the general statement. -/
theorem staging_path_from_input_path_witness :
    (∀ c ∈ "yellow_tripdata_2022-03".toList, c ≠ '.') ∧
    save_loc (String.mk ("yellow_tripdata_2022-03".toList ++
        '.' :: "parquet".toList)) =
      "/var/lib/neo4j/import/" ++ String.mk "yellow_tripdata_2022-03".toList
        ++ ".csv" := by
  refine ⟨by decide, ?_⟩
  exact staging_path_from_input_path.1 _ _ (by decide)

/-- Counterexample to C6 as stated: the source derives the staging path
from the whole input path up to the FIRST dot, not from the input file's
base name with its extension replaced.  For `data/trips.v2.parquet` the
base-name derivation the claim describes yields
`/var/lib/neo4j/import/trips.v2.csv`, while the code produces
`/var/lib/neo4j/import/data/trips.csv` — it keeps the directory part and
truncates at the first dot rather than the last. -/
theorem staging_path_not_derived_from_base_name :
    save_loc "data/trips.v2.parquet" = "/var/lib/neo4j/import/data/trips.csv" ∧
    specStagingPath "data/trips.v2.parquet" =
      "/var/lib/neo4j/import/trips.v2.csv" ∧
    save_loc "data/trips.v2.parquet" ≠ specStagingPath "data/trips.v2.parquet" := by
  refine ⟨rfl, rfl, ?_⟩
  decide

/-- Unfolding equation: the `MERGE` statement. -/
theorem runStmt_merge_eq (g : Graph) (n : Int) :
    runStmt g (Stmt.mergeLocation n) =
      if n ∈ g.nodes then g else { g with nodes := g.nodes ++ [n] } := rfl

/-- Unfolding equation: the `MATCH ... CREATE` statement. -/
theorem runStmt_create_eq (g : Graph) (e : TripEdge) :
    runStmt g (Stmt.createTrip e) =
      if e.src ∈ g.nodes ∧ e.dst ∈ g.nodes then
        { g with edges := g.edges ++ [e] }
      else g := rfl

/-- `MERGE` leaves the edge list untouched. -/
theorem runStmt_merge_edges (g : Graph) (n : Int) :
    (runStmt g (Stmt.mergeLocation n)).edges = g.edges := by
  rw [runStmt_merge_eq]
  by_cases h : n ∈ g.nodes <;> simp [h]

/-- `MATCH ... CREATE` leaves the node list untouched. -/
theorem runStmt_create_nodes (g : Graph) (e : TripEdge) :
    (runStmt g (Stmt.createTrip e)).nodes = g.nodes := by
  rw [runStmt_create_eq]
  by_cases h : e.src ∈ g.nodes ∧ e.dst ∈ g.nodes <;> simp [h]

/-- `MERGE` makes its node present. -/
theorem runStmt_merge_mem (g : Graph) (n : Int) :
    n ∈ (runStmt g (Stmt.mergeLocation n)).nodes := by
  rw [runStmt_merge_eq]
  by_cases h : n ∈ g.nodes <;> simp [h]

/-- `MERGE` keeps every node that was already present. -/
theorem runStmt_merge_nodes_sub (g : Graph) (n : Int) :
    g.nodes ⊆ (runStmt g (Stmt.mergeLocation n)).nodes := by
  rw [runStmt_merge_eq]
  by_cases h : n ∈ g.nodes <;> intro x hx <;> simp [h, hx]

/-- `MERGE` on an already present node is a no-op (idempotence). -/
theorem runStmt_merge_idem (g : Graph) (n : Int) (h : n ∈ g.nodes) :
    runStmt g (Stmt.mergeLocation n) = g := by
  rw [runStmt_merge_eq, if_pos h]

/-- Loading one record always appends exactly its edge: the two preceding
`MERGE`s guarantee that the `MATCH` of the `CREATE` statement finds both
endpoint nodes. -/
theorem loadRecord_edges (g : Graph) (r : TripRecord) :
    (loadRecord g r).edges = g.edges ++ [edgeOf r] := by
  unfold loadRecord
  have h1 : r.PULocationID ∈ (runStmt (runStmt g
      (Stmt.mergeLocation r.PULocationID))
      (Stmt.mergeLocation r.DOLocationID)).nodes :=
    runStmt_merge_nodes_sub _ _ (runStmt_merge_mem g r.PULocationID)
  have h2 : r.DOLocationID ∈ (runStmt (runStmt g
      (Stmt.mergeLocation r.PULocationID))
      (Stmt.mergeLocation r.DOLocationID)).nodes :=
    runStmt_merge_mem _ r.DOLocationID
  rw [runStmt_create_eq,
    if_pos (⟨h1, h2⟩ : (edgeOf r).src ∈ _ ∧ (edgeOf r).dst ∈ _)]
  rw [runStmt_merge_edges, runStmt_merge_edges]

/-- Loading one record keeps existing nodes and adds its endpoints. -/
theorem loadRecord_nodes (g : Graph) (r : TripRecord) :
    g.nodes ⊆ (loadRecord g r).nodes ∧
    r.PULocationID ∈ (loadRecord g r).nodes ∧
    r.DOLocationID ∈ (loadRecord g r).nodes := by
  unfold loadRecord
  rw [runStmt_create_nodes]
  refine ⟨?_, ?_, runStmt_merge_mem _ _⟩
  · exact fun x hx =>
      runStmt_merge_nodes_sub _ _ (runStmt_merge_nodes_sub _ _ hx)
  · exact runStmt_merge_nodes_sub _ _ (runStmt_merge_mem _ _)

/-- A full load appends exactly one edge per record, in order. -/
theorem loadAll_edges (g : Graph) (recs : List TripRecord) :
    (loadAll g recs).edges = g.edges ++ recs.map edgeOf := by
  induction recs generalizing g with
  | nil => simp [loadAll]
  | cons r rs ih =>
    show (loadAll (loadRecord g r) rs).edges = _
    rw [ih, loadRecord_edges]
    simp

/-- A full load never removes nodes. -/
theorem loadAll_nodes_sub (g : Graph) (recs : List TripRecord) :
    g.nodes ⊆ (loadAll g recs).nodes := by
  induction recs generalizing g with
  | nil => exact fun x hx => hx
  | cons r rs ih =>
    intro x hx
    exact ih (loadRecord g r) ((loadRecord_nodes g r).1 hx)

/-- After a full load, the endpoints of every processed record are
present. -/
theorem loadAll_mem_nodes (g : Graph) (recs : List TripRecord)
    (r : TripRecord) (h : r ∈ recs) :
    r.PULocationID ∈ (loadAll g recs).nodes ∧
    r.DOLocationID ∈ (loadAll g recs).nodes := by
  induction recs generalizing g with
  | nil => simp at h
  | cons q rs ih =>
    rcases List.mem_cons.mp h with h | h
    · subst h
      refine ⟨?_, ?_⟩ <;>
        show _ ∈ (loadAll (loadRecord g r) rs).nodes
      · exact loadAll_nodes_sub (loadRecord g r) rs
          ((loadRecord_nodes g r).2.1)
      · exact loadAll_nodes_sub (loadRecord g r) rs
          ((loadRecord_nodes g r).2.2)
    · exact ih (loadRecord g q) h

/-- Loading a record whose endpoints already exist only appends its edge:
both `MERGE`s are no-ops. -/
theorem loadRecord_stable (g : Graph) (r : TripRecord)
    (h1 : r.PULocationID ∈ g.nodes) (h2 : r.DOLocationID ∈ g.nodes) :
    loadRecord g r = { g with edges := g.edges ++ [edgeOf r] } := by
  unfold loadRecord
  rw [runStmt_merge_idem g _ h1, runStmt_merge_idem g _ h2,
    runStmt_create_eq,
    if_pos (⟨h1, h2⟩ :
      (edgeOf r).src ∈ g.nodes ∧ (edgeOf r).dst ∈ g.nodes)]

/-- Re-loading records whose endpoints all exist leaves the node list
unchanged. -/
theorem loadAll_nodes_stable (g : Graph) (recs : List TripRecord)
    (h : ∀ r ∈ recs, r.PULocationID ∈ g.nodes ∧ r.DOLocationID ∈ g.nodes) :
    (loadAll g recs).nodes = g.nodes := by
  induction recs generalizing g with
  | nil => rfl
  | cons r rs ih =>
    have hr := h r (List.mem_cons_self r rs)
    show (loadAll (loadRecord g r) rs).nodes = g.nodes
    rw [loadRecord_stable g r hr.1 hr.2]
    exact ih { g with edges := g.edges ++ [edgeOf r] }
      (fun q hq => h q (List.mem_cons_of_mem r hq))

/-- C4 (amended): starting from a graph with no `TRIP` relationships,
running the full load twice over identical input yields exactly twice the
`TRIP` relationship count of a single run, and the same `Location` node
count — node creation (`MERGE`) is idempotent, edge creation (`CREATE`)
is not. -/
theorem double_load_doubles_edges_keeps_nodes
    (g : Graph) (recs : List TripRecord) (h : g.edges = []) :
    (loadAll (loadAll g recs) recs).edges.length =
      2 * (loadAll g recs).edges.length ∧
    (loadAll (loadAll g recs) recs).nodes.length =
      (loadAll g recs).nodes.length := by
  constructor
  · rw [loadAll_edges, loadAll_edges, h]
    simp [Nat.two_mul]
  · rw [loadAll_nodes_stable (loadAll g recs) recs
      (fun r hr => loadAll_mem_nodes g recs r hr)]

/-- Witness for C4 at a concrete input: one record loaded twice into the
empty graph gives two edges and the same two nodes. -/
theorem double_load_doubles_edges_keeps_nodes_witness :
    (⟨[], []⟩ : Graph).edges = [] ∧
    (loadAll (loadAll ⟨[], []⟩
        [⟨3, 18, 5, 10, ⟨2022, 3, 1, 0, 0, 0⟩, ⟨2022, 3, 1, 1, 0, 0⟩⟩])
        [⟨3, 18, 5, 10, ⟨2022, 3, 1, 0, 0, 0⟩,
          ⟨2022, 3, 1, 1, 0, 0⟩⟩]).edges.length =
      2 * (loadAll ⟨[], []⟩
        [⟨3, 18, 5, 10, ⟨2022, 3, 1, 0, 0, 0⟩,
          ⟨2022, 3, 1, 1, 0, 0⟩⟩]).edges.length ∧
    (loadAll (loadAll ⟨[], []⟩
        [⟨3, 18, 5, 10, ⟨2022, 3, 1, 0, 0, 0⟩, ⟨2022, 3, 1, 1, 0, 0⟩⟩])
        [⟨3, 18, 5, 10, ⟨2022, 3, 1, 0, 0, 0⟩,
          ⟨2022, 3, 1, 1, 0, 0⟩⟩]).nodes.length =
      (loadAll ⟨[], []⟩
        [⟨3, 18, 5, 10, ⟨2022, 3, 1, 0, 0, 0⟩,
          ⟨2022, 3, 1, 1, 0, 0⟩⟩]).nodes.length := by
  have h := double_load_doubles_edges_keeps_nodes ⟨[], []⟩
    [⟨3, 18, 5, 10, ⟨2022, 3, 1, 0, 0, 0⟩, ⟨2022, 3, 1, 1, 0, 0⟩⟩] rfl
  exact ⟨rfl, h.1, h.2⟩

/-- Counterexample to C4 as stated over EVERY initial graph state: when
the initial graph already holds a `TRIP` relationship, the double run's
edge total (here 3) differs from twice the single run's (here 2·2 = 4).
The claim holds only relative to a graph without pre-existing `TRIP`
relationships, or restated about the number of edges each run ADDS. -/
theorem double_load_initial_edges_counterexample :
    (loadAll (loadAll ⟨[7], [⟨7, 7, 1, 1, ⟨2022, 1, 1, 0, 0, 0⟩,
        ⟨2022, 1, 1, 0, 0, 0⟩⟩]⟩
        [⟨3, 18, 5, 10, ⟨2022, 3, 1, 0, 0, 0⟩, ⟨2022, 3, 1, 1, 0, 0⟩⟩])
        [⟨3, 18, 5, 10, ⟨2022, 3, 1, 0, 0, 0⟩,
          ⟨2022, 3, 1, 1, 0, 0⟩⟩]).edges.length ≠
      2 * (loadAll ⟨[7], [⟨7, 7, 1, 1, ⟨2022, 1, 1, 0, 0, 0⟩,
        ⟨2022, 1, 1, 0, 0, 0⟩⟩]⟩
        [⟨3, 18, 5, 10, ⟨2022, 3, 1, 0, 0, 0⟩,
          ⟨2022, 3, 1, 1, 0, 0⟩⟩]).edges.length := by
  decide

/-- C7: per surviving record, in sequence order, the loader issues exactly
three statements — `MERGE` the pickup `Location` node, `MERGE` the dropoff
`Location` node, then `MATCH` both and `CREATE` the `TRIP` edge with its
four properties — so the trace is three statements per record with no
batching; replaying the trace one statement at a time (each one a separate
round trip) reproduces exactly the graph the loader builds. -/
theorem loader_three_statements_per_record
    (g : Graph) (recs : List TripRecord) :
    (loadWithTrace g recs).2 = recs.flatMap (fun r =>
      [Stmt.mergeLocation r.PULocationID,
       Stmt.mergeLocation r.DOLocationID,
       Stmt.createTrip (edgeOf r)]) ∧
    (loadWithTrace g recs).2.length = 3 * recs.length ∧
    (loadWithTrace g recs).1 =
      List.foldl runStmt g (loadWithTrace g recs).2 ∧
    (loadWithTrace g recs).1 = loadAll g recs := by
  induction recs generalizing g with
  | nil => exact ⟨rfl, rfl, rfl, rfl⟩
  | cons r rs ih =>
    obtain ⟨htr, hlen, hfold, hall⟩ := ih (loadRecord g r)
    refine ⟨?_, ?_, ?_, ?_⟩
    · show Stmt.mergeLocation r.PULocationID :: _ :: _ ::
        (loadWithTrace (loadRecord g r) rs).2 = _
      rw [htr]
      simp [List.flatMap_cons]
    · show (Stmt.mergeLocation r.PULocationID :: _ :: _ ::
        (loadWithTrace (loadRecord g r) rs).2).length = _
      simp only [List.length_cons, hlen, List.length_cons]
      ring
    · show (loadWithTrace (loadRecord g r) rs).1 = _
      rw [hfold]
      rfl
    · exact hall

/-- Unfolding equation: no fuel, the `while` guard fails, the run ends in
failure. -/
theorem runFrom_zero (o : Nat → Outcome) (attempt : Nat) :
    runFrom o attempt 0 = ([], Final.failed) := rfl

/-- Unfolding equation: a fully successful iteration connects, loads,
closes, and exits the loop. -/
theorem runFrom_ok (o : Nat → Outcome) (attempt fuel : Nat)
    (h : o attempt = Outcome.ok) :
    runFrom o attempt (fuel + 1) =
      ([Event.tryConnect attempt, Event.connOpened attempt,
        Event.connClosed attempt], Final.succeeded) := by
  conv_lhs => unfold runFrom
  rw [h]

/-- Unfolding equation: an iteration whose connect raises logs, sleeps and
retries; no connection is opened. -/
theorem runFrom_connFail (o : Nat → Outcome) (attempt fuel : Nat)
    (m : String) (h : o attempt = Outcome.connFail m) :
    runFrom o attempt (fuel + 1) =
      (Event.tryConnect attempt :: Event.logErr (attempt + 1) m ::
        Event.sleepTen :: (runFrom o (attempt + 1) fuel).1,
       (runFrom o (attempt + 1) fuel).2) := by
  conv_lhs => unfold runFrom
  rw [h]

/-- Unfolding equation: an iteration that connects but whose load raises
logs, sleeps and retries; the opened connection is never closed. -/
theorem runFrom_loadFail (o : Nat → Outcome) (attempt fuel : Nat)
    (m : String) (h : o attempt = Outcome.loadFail m) :
    runFrom o attempt (fuel + 1) =
      (Event.tryConnect attempt :: Event.connOpened attempt ::
        Event.logErr (attempt + 1) m :: Event.sleepTen ::
        (runFrom o (attempt + 1) fuel).1,
       (runFrom o (attempt + 1) fuel).2) := by
  conv_lhs => unfold runFrom
  rw [h]

/-- With a connector that never succeeds, every allowed iteration runs:
one connect attempt, one log and one sleep per unit of fuel, the final
state is `failed`, and the last event of a nonempty run is the sleep
(`time.sleep(10)` runs after the last failure, before the guard exits). -/
theorem runFrom_all_fail (o : Nat → Outcome)
    (h : ∀ k, o k ≠ Outcome.ok) :
    ∀ fuel attempt,
      countTry (runFrom o attempt fuel).1 = fuel ∧
      countSleep (runFrom o attempt fuel).1 = fuel ∧
      countLog (runFrom o attempt fuel).1 = fuel ∧
      (runFrom o attempt fuel).2 = Final.failed ∧
      (0 < fuel →
        (runFrom o attempt fuel).1.getLast? = some Event.sleepTen) := by
  intro fuel
  induction fuel with
  | zero =>
    intro attempt
    simp [runFrom_zero, countTry, countSleep, countLog]
  | succ f ih =>
    intro attempt
    obtain ⟨htry, hsleep, hlog, hfin, hlast⟩ := ih (attempt + 1)
    simp only [countTry, countSleep, countLog] at htry hsleep hlog
    have key : ∀ pre : List Event, pre.getLast? = some Event.sleepTen →
        (pre ++ (runFrom o (attempt + 1) f).1).getLast? =
          some Event.sleepTen := by
      intro pre hpre
      rw [List.getLast?_append]
      rcases Nat.eq_zero_or_pos f with h0 | h0
      · rw [h0, runFrom_zero]
        simp [hpre]
      · rw [hlast h0]
        rfl
    cases ho : o attempt with
    | ok => exact absurd ho (h attempt)
    | connFail m =>
      rw [runFrom_connFail o attempt f m ho]
      refine ⟨?_, ?_, ?_, hfin, fun _ => ?_⟩
      · simp [countTry, List.countP_cons, htry]
      · simp [countSleep, List.countP_cons, hsleep]
      · simp [countLog, List.countP_cons, hlog]
      · exact key [Event.tryConnect attempt, Event.logErr (attempt + 1) m,
          Event.sleepTen] rfl
    | loadFail m =>
      rw [runFrom_loadFail o attempt f m ho]
      refine ⟨?_, ?_, ?_, hfin, fun _ => ?_⟩
      · simp [countTry, List.countP_cons, htry]
      · simp [countSleep, List.countP_cons, hsleep]
      · simp [countLog, List.countP_cons, hlog]
      · exact key [Event.tryConnect attempt, Event.connOpened attempt,
          Event.logErr (attempt + 1) m, Event.sleepTen] rfl

/-- If the first `k` iterations fail and iteration `k` (relative to the
current attempt counter) succeeds, the loop runs exactly `k + 1`
iterations with `k` sleeps and exits successfully. -/
theorem runFrom_first_ok (o : Nat → Outcome) :
    ∀ k attempt fuel, k < fuel →
      (∀ j, j < k → o (attempt + j) ≠ Outcome.ok) →
      o (attempt + k) = Outcome.ok →
      (runFrom o attempt fuel).2 = Final.succeeded ∧
      countTry (runFrom o attempt fuel).1 = k + 1 ∧
      countSleep (runFrom o attempt fuel).1 = k := by
  intro k
  induction k with
  | zero =>
    intro attempt fuel hk hfail hok
    obtain ⟨f, rfl⟩ : ∃ f, fuel = f + 1 :=
      ⟨fuel - 1, by omega⟩
    rw [runFrom_ok o attempt f (by simpa using hok)]
    refine ⟨rfl, ?_, ?_⟩
    · simp [countTry, List.countP_cons]
    · simp [countSleep, List.countP_cons]
  | succ n ih =>
    intro attempt fuel hk hfail hok
    obtain ⟨f, rfl⟩ : ∃ f, fuel = f + 1 :=
      ⟨fuel - 1, by omega⟩
    have hne : o attempt ≠ Outcome.ok := by
      have := hfail 0 (Nat.succ_pos n)
      simpa using this
    have hfail' : ∀ j, j < n → o (attempt + 1 + j) ≠ Outcome.ok := by
      intro j hj
      have := hfail (j + 1) (by omega)
      have harr : attempt + (j + 1) = attempt + 1 + j := by omega
      rwa [harr] at this
    have hok' : o (attempt + 1 + n) = Outcome.ok := by
      have harr : attempt + (n + 1) = attempt + 1 + n := by omega
      rwa [harr] at hok
    obtain ⟨hsucc, htry, hsleep⟩ := ih (attempt + 1) f (by omega) hfail' hok'
    simp only [countTry, countSleep] at htry hsleep
    cases ho : o attempt with
    | ok => exact absurd ho hne
    | connFail m =>
      rw [runFrom_connFail o attempt f m ho]
      refine ⟨hsucc, ?_, ?_⟩
      · simp [countTry, List.countP_cons, htry]
      · simp [countSleep, List.countP_cons, hsleep]
    | loadFail m =>
      rw [runFrom_loadFail o attempt f m ho]
      refine ⟨hsucc, ?_, ?_⟩
      · simp [countTry, List.countP_cons, htry]
      · simp [countSleep, List.countP_cons, hsleep]

/-- C2: the retry loop of `main` stops at the first successful attempt
and reaches the successful final state — if the first success is at
0-based position `k` (so a connector failing the first `k` times), the
run makes exactly `k + 1` connect attempts and sleeps `k` times, e.g. 4
attempts and 3 sleeps for a connector failing the first 3 times — and
with a connector that always fails it makes exactly 10 attempts and then
ends in the failed state. -/
theorem retry_stops_at_first_success :
    (∀ (o : Nat → Outcome) (k : Nat), k < total_attempts →
      (∀ j, j < k → o j ≠ Outcome.ok) → o k = Outcome.ok →
      (run o).2 = Final.succeeded ∧
      countTry (run o).1 = k + 1 ∧
      countSleep (run o).1 = k) ∧
    (∀ o : Nat → Outcome, (∀ k, o k ≠ Outcome.ok) →
      countTry (run o).1 = total_attempts ∧
      (run o).2 = Final.failed) := by
  constructor
  · intro o k hk hfail hok
    have h := runFrom_first_ok o k 0 total_attempts hk
      (by intro j hj; simpa using hfail j hj) (by simpa using hok)
    exact ⟨h.1, h.2.1, h.2.2⟩
  · intro o h
    have hh := runFrom_all_fail o h total_attempts 0
    exact ⟨hh.1, hh.2.2.2.1⟩

/-- Witness for C2: a connector failing the first 3 attempts and
succeeding on the 4th gives success after 4 attempts and 3 sleeps, and an
always-failing connector gives 10 attempts and failure. -/
theorem retry_stops_at_first_success_witness :
    ((run (fun k => if k < 3 then Outcome.connFail "e" else Outcome.ok)).2 =
        Final.succeeded ∧
      countTry (run (fun k => if k < 3 then Outcome.connFail "e"
        else Outcome.ok)).1 = 4 ∧
      countSleep (run (fun k => if k < 3 then Outcome.connFail "e"
        else Outcome.ok)).1 = 3) ∧
    (countTry (run (fun _ => Outcome.loadFail "e")).1 = total_attempts ∧
      (run (fun _ => Outcome.loadFail "e")).2 = Final.failed) := by
  constructor
  · exact retry_stops_at_first_success.1
      (fun k => if k < 3 then Outcome.connFail "e" else Outcome.ok) 3
      (by decide) (by decide) (by decide)
  · exact retry_stops_at_first_success.2 (fun _ => Outcome.loadFail "e")
      (fun k h => Outcome.noConfusion h)

/-- In every run, sleeps and handler log lines are in bijection: the
`except` block always executes `print`, `attempt += 1` and
`time.sleep(10)` together. -/
theorem runFrom_sleep_eq_log (o : Nat → Outcome) :
    ∀ fuel attempt,
      countSleep (runFrom o attempt fuel).1 =
        countLog (runFrom o attempt fuel).1 := by
  intro fuel
  induction fuel with
  | zero =>
    intro attempt
    simp [runFrom_zero, countSleep, countLog]
  | succ f ih =>
    intro attempt
    have h := ih (attempt + 1)
    simp only [countSleep, countLog] at h
    cases ho : o attempt with
    | ok =>
      rw [runFrom_ok o attempt f ho]
      simp [countSleep, countLog, List.countP_cons]
    | connFail m =>
      rw [runFrom_connFail o attempt f m ho]
      simp [countSleep, countLog, List.countP_cons, h]
    | loadFail m =>
      rw [runFrom_loadFail o attempt f m ho]
      simp [countSleep, countLog, List.countP_cons, h]

/-- C10: every failed attempt sleeps the fixed delay before the loop
guard is re-checked — sleeps and failure log lines are always equal in
number — so a run that exhausts the budget sleeps exactly 10 times, and
its very last event is a sleep: one sleep follows the 10th failure even
though no further attempt can follow it. -/
theorem sleeps_after_every_failure_even_the_last :
    (∀ o : Nat → Outcome,
      countSleep (run o).1 = countLog (run o).1) ∧
    (∀ o : Nat → Outcome, (∀ k, o k ≠ Outcome.ok) →
      countSleep (run o).1 = total_attempts ∧
      (run o).1.getLast? = some Event.sleepTen) := by
  constructor
  · intro o
    exact runFrom_sleep_eq_log o total_attempts 0
  · intro o h
    have hh := runFrom_all_fail o h total_attempts 0
    exact ⟨hh.2.1, hh.2.2.2.2 (by decide)⟩

/-- Witness for C10: an always-failing connector sleeps 10 times and the
run's last event is the sleep that follows the final failure. -/
theorem sleeps_after_every_failure_even_the_last_witness :
    countSleep (run (fun _ => Outcome.connFail "x")).1 =
      countLog (run (fun _ => Outcome.connFail "x")).1 ∧
    countSleep (run (fun _ => Outcome.connFail "x")).1 = total_attempts ∧
    (run (fun _ => Outcome.connFail "x")).1.getLast? =
      some Event.sleepTen := by
  have h2 := sleeps_after_every_failure_even_the_last.2
    (fun _ => Outcome.connFail "x") (fun k h => Outcome.noConfusion h)
  exact ⟨sleeps_after_every_failure_even_the_last.1
    (fun _ => Outcome.connFail "x"), h2.1, h2.2⟩

/-- In any run, the close event for attempt `k` occurs iff attempt `k`
opened a connection AND succeeded: `data_loader.close()` (line 107) runs
only on the fully successful path, never in the `except` handler. -/
theorem runFrom_closed_iff (o : Nat → Outcome) :
    ∀ fuel attempt k,
      Event.connClosed k ∈ (runFrom o attempt fuel).1 ↔
        (Event.connOpened k ∈ (runFrom o attempt fuel).1 ∧
          o k = Outcome.ok) := by
  intro fuel
  induction fuel with
  | zero =>
    intro attempt k
    simp [runFrom_zero]
  | succ f ih =>
    intro attempt k
    cases ho : o attempt with
    | ok =>
      rw [runFrom_ok o attempt f ho]
      simp only [List.mem_cons, List.mem_singleton, List.not_mem_nil,
        or_false]
      constructor
      · intro hk
        rcases hk with hk | hk | hk
        · cases hk
        · cases hk
        · have hks : k = attempt := by
            cases hk
            rfl
          subst hks
          exact ⟨Or.inr (Or.inl rfl), ho⟩
      · rintro ⟨hop, hok⟩
        rcases hop with hop | hop | hop
        · cases hop
        · have hks : k = attempt := by
            cases hop
            rfl
          subst hks
          exact Or.inr (Or.inr rfl)
        · cases hop
    | connFail m =>
      rw [runFrom_connFail o attempt f m ho]
      simp only [List.mem_cons]
      constructor
      · intro hk
        rcases hk with hk | hk | hk | hk
        · cases hk
        · cases hk
        · cases hk
        · have := (ih (attempt + 1) k).mp hk
          exact ⟨Or.inr (Or.inr (Or.inr this.1)), this.2⟩
      · rintro ⟨hop, hok⟩
        rcases hop with hop | hop | hop | hop
        · cases hop
        · cases hop
        · cases hop
        · exact Or.inr (Or.inr (Or.inr
            ((ih (attempt + 1) k).mpr ⟨hop, hok⟩)))
    | loadFail m =>
      rw [runFrom_loadFail o attempt f m ho]
      simp only [List.mem_cons]
      constructor
      · intro hk
        rcases hk with hk | hk | hk | hk | hk
        · cases hk
        · cases hk
        · cases hk
        · cases hk
        · have := (ih (attempt + 1) k).mp hk
          exact ⟨Or.inr (Or.inr (Or.inr (Or.inr this.1))), this.2⟩
      · rintro ⟨hop, hok⟩
        rcases hop with hop | hop | hop | hop | hop
        · cases hop
        · have hks : k = attempt := by
            cases hop
            rfl
          subst hks
          rw [ho] at hok
          cases hok
        · cases hop
        · cases hop
        · exact Or.inr (Or.inr (Or.inr (Or.inr
            ((ih (attempt + 1) k).mpr ⟨hop, hok⟩))))

/-- C3 (amended): the connection opened by an attempt is closed iff that
attempt is the fully successful one (after which no next attempt begins);
an attempt that connects successfully and then fails during loading or
transformation leaves its connection unclosed when the next attempt
begins — the source has no `finally`/context-manager around
`DataLoader`. -/
theorem connection_closed_iff_attempt_succeeded
    (o : Nat → Outcome) (k : Nat) :
    Event.connClosed k ∈ (run o).1 ↔
      (Event.connOpened k ∈ (run o).1 ∧ o k = Outcome.ok) :=
  runFrom_closed_iff o total_attempts 0 k

/-- Counterexample to C3 as stated: with a connector that connects but
fails during loading, attempt 0 opens a connection, the next attempt
begins (its connect attempt is in the trace), yet no close of attempt 0's
connection ever happens. -/
theorem failed_attempt_leaks_connection :
    Event.connOpened 0 ∈ (run (fun _ => Outcome.loadFail "boom")).1 ∧
    Event.tryConnect 1 ∈ (run (fun _ => Outcome.loadFail "boom")).1 ∧
    Event.connClosed 0 ∉ (run (fun _ => Outcome.loadFail "boom")).1 := by
  decide

/-- The handler of `main` sees only the exception's message (`str(e)`):
two outcome sequences whose per-attempt messages agree — regardless of
whether each failure arises while connecting or while loading — produce
identical log lines, identical final state, and identical sleep and
attempt counts. -/
theorem runFrom_handler_uniform (o₁ o₂ : Nat → Outcome)
    (h : ∀ k, outcomeMsg (o₁ k) = outcomeMsg (o₂ k)) :
    ∀ fuel attempt,
      logsOf (runFrom o₁ attempt fuel).1 =
        logsOf (runFrom o₂ attempt fuel).1 ∧
      (runFrom o₁ attempt fuel).2 = (runFrom o₂ attempt fuel).2 ∧
      countSleep (runFrom o₁ attempt fuel).1 =
        countSleep (runFrom o₂ attempt fuel).1 ∧
      countTry (runFrom o₁ attempt fuel).1 =
        countTry (runFrom o₂ attempt fuel).1 := by
  intro fuel
  induction fuel with
  | zero =>
    intro attempt
    simp [runFrom_zero]
  | succ f ih =>
    intro attempt
    have hm := h attempt
    obtain ⟨il, ifin, isl, itry⟩ := ih (attempt + 1)
    simp only [logsOf, countSleep, countTry] at il isl itry
    cases ho1 : o₁ attempt with
    | ok =>
      cases ho2 : o₂ attempt with
      | ok =>
        rw [runFrom_ok o₁ attempt f ho1, runFrom_ok o₂ attempt f ho2]
        simp [logsOf, countSleep, countTry, List.countP_cons,
          List.filterMap_cons]
      | connFail m =>
        rw [ho1, ho2] at hm
        simp [outcomeMsg] at hm
      | loadFail m =>
        rw [ho1, ho2] at hm
        simp [outcomeMsg] at hm
    | connFail m =>
      cases ho2 : o₂ attempt with
      | ok =>
        rw [ho1, ho2] at hm
        simp [outcomeMsg] at hm
      | connFail m' =>
        rw [ho1, ho2] at hm
        simp only [outcomeMsg, Option.some.injEq] at hm
        subst hm
        rw [runFrom_connFail o₁ attempt f m ho1,
          runFrom_connFail o₂ attempt f m ho2]
        refine ⟨?_, ifin, ?_, ?_⟩
        · simp [logsOf, List.filterMap_cons, il]
        · simp [countSleep, List.countP_cons, isl]
        · simp [countTry, List.countP_cons, itry]
      | loadFail m' =>
        rw [ho1, ho2] at hm
        simp only [outcomeMsg, Option.some.injEq] at hm
        subst hm
        rw [runFrom_connFail o₁ attempt f m ho1,
          runFrom_loadFail o₂ attempt f m ho2]
        refine ⟨?_, ifin, ?_, ?_⟩
        · simp [logsOf, List.filterMap_cons, il]
        · simp [countSleep, List.countP_cons, isl]
        · simp [countTry, List.countP_cons, itry]
    | loadFail m =>
      cases ho2 : o₂ attempt with
      | ok =>
        rw [ho1, ho2] at hm
        simp [outcomeMsg] at hm
      | connFail m' =>
        rw [ho1, ho2] at hm
        simp only [outcomeMsg, Option.some.injEq] at hm
        subst hm
        rw [runFrom_loadFail o₁ attempt f m ho1,
          runFrom_connFail o₂ attempt f m ho2]
        refine ⟨?_, ifin, ?_, ?_⟩
        · simp [logsOf, List.filterMap_cons, il]
        · simp [countSleep, List.countP_cons, isl]
        · simp [countTry, List.countP_cons, itry]
      | loadFail m' =>
        rw [ho1, ho2] at hm
        simp only [outcomeMsg, Option.some.injEq] at hm
        subst hm
        rw [runFrom_loadFail o₁ attempt f m ho1,
          runFrom_loadFail o₂ attempt f m ho2]
        refine ⟨?_, ifin, ?_, ?_⟩
        · simp [logsOf, List.filterMap_cons, il]
        · simp [countSleep, List.countP_cons, isl]
        · simp [countTry, List.countP_cons, itry]

/-- C8 (amended): `main` catches every failure with one generic
`except Exception` handler and retries connection failures and load
failures identically; the orchestrator itself does not branch on the
failure kind — its log line shows only the attempt number and the
exception's message — so two runs whose failures carry the same messages
are indistinguishable in logs, final state, sleeps and attempt count,
whichever step raised them. -/
theorem failures_handled_uniformly (o₁ o₂ : Nat → Outcome)
    (h : ∀ k, outcomeMsg (o₁ k) = outcomeMsg (o₂ k)) :
    logsOf (run o₁).1 = logsOf (run o₂).1 ∧
    (run o₁).2 = (run o₂).2 ∧
    countSleep (run o₁).1 = countSleep (run o₂).1 ∧
    countTry (run o₁).1 = countTry (run o₂).1 :=
  runFrom_handler_uniform o₁ o₂ h total_attempts 0

/-- Witness for C8: an always-connect-failing run and an always-load-
failing run with the same message are treated identically. -/
theorem failures_handled_uniformly_witness :
    (∀ k : Nat, outcomeMsg ((fun _ : Nat => Outcome.connFail "boom") k) =
      outcomeMsg ((fun _ : Nat => Outcome.loadFail "boom") k)) ∧
    logsOf (run (fun _ => Outcome.connFail "boom")).1 =
      logsOf (run (fun _ => Outcome.loadFail "boom")).1 ∧
    (run (fun _ => Outcome.connFail "boom")).2 =
      (run (fun _ => Outcome.loadFail "boom")).2 := by
  have h := failures_handled_uniformly (fun _ => Outcome.connFail "boom")
    (fun _ => Outcome.loadFail "boom") (fun _ => rfl)
  exact ⟨fun _ => rfl, h.1, h.2.1⟩

/-- Counterexample to C8 as stated: the orchestrator does NOT distinguish
"could not connect" from "connected but load failed" — a run where every
connect raises and a run where every load raises (same exception message)
produce byte-identical log sequences and the same final state, because
the single `except Exception` handler prints only `str(e)`. -/
theorem connect_and_load_failures_log_identically :
    logsOf (run (fun _ => Outcome.connFail "boom")).1 =
      logsOf (run (fun _ => Outcome.loadFail "boom")).1 ∧
    (run (fun _ => Outcome.connFail "boom")).2 =
      (run (fun _ => Outcome.loadFail "boom")).2 ∧
    countSleep (run (fun _ => Outcome.connFail "boom")).1 =
      countSleep (run (fun _ => Outcome.loadFail "boom")).1 := by
  refine ⟨?_, ?_, ?_⟩ <;> decide
